import Mathlib

set_option maxRecDepth 10000
set_option maxHeartbeats 1000000

namespace Spx2Html

/-- Association-list lookup, modelling `HashMap::get` from the Rust source. -/
def lookupAssoc {α β : Type} [DecidableEq α] : List (α × β) → α → Option β
  | [], _ => none
  | (k, v) :: rest, key => if k = key then some v else lookupAssoc rest key

/-- Association-list insert with overwrite, modelling `HashMap::insert`. -/
def insertAssoc {α β : Type} [DecidableEq α] : List (α × β) → α → β → List (α × β)
  | [], key, val => [(key, val)]
  | (k, v) :: rest, key, val =>
    if k = key then (key, val) :: rest else (k, v) :: insertAssoc rest key val

/-- Splits a character list at every occurrence of `c`, keeping empty chunks.
This matches Rust `str::split(c)`: the empty string yields one empty chunk,
and separators at the ends produce empty chunks. -/
def splitChar (c : Char) : List Char → List (List Char)
  | [] => [[]]
  | a :: rest =>
    match splitChar c rest with
    | [] => [[]]
    | g :: gs => if a = c then [] :: g :: gs else (a :: g) :: gs

/-- Splits a string on `/`, as done by each path sanitizer in the source
(`dest_path.split('/')` in `handle_provide_file`, `finish_file` and
`emit_copied_file`). -/
def splitSlash (s : String) : List String :=
  (splitChar '/' s.data).map fun l => ⟨l⟩

/-- Models Rust `str::strip_prefix`: returns the remainder when `p` is a
prefix of `s`. -/
def dropPfx (s p : String) : Option String :=
  if s.data.take p.data.length = p.data then some ⟨s.data.drop p.data.length⟩ else none

/-- Models Rust `str::starts_with`. -/
def startsW (s p : String) : Bool :=
  (dropPfx s p).isSome

/-- Models Rust `str::split_once(c)`: splits at the first occurrence of `c`. -/
def splitOnceAux (c : Char) : List Char → Option (List Char × List Char)
  | [] => none
  | a :: rest =>
    if a = c then some ([], rest)
    else (splitOnceAux c rest).map fun p => (a :: p.1, p.2)

/-- Models Rust `str::split_once(c)` on strings. -/
def splitOnce (s : String) (c : Char) : Option (String × String) :=
  (splitOnceAux c s.data).map fun p => (⟨p.1⟩, ⟨p.2⟩)

/-- Models Rust `str::ends_with(c)` for a single character. -/
def endsWithChar (s : String) (c : Char) : Bool :=
  s.data.getLast? = some c

/-- Models `texpath.rsplit('/').next().unwrap()` from
`handle_define_native_font`: the basename after the last slash. -/
def lastSeg (s : String) : String :=
  (splitSlash s).getLastD s

/-- Checks whether a path segment is judged absolute/rooted by the source's
`Path::new(piece).is_absolute() || as_path.has_root()` test. On Unix both
reduce to the segment beginning with a slash. -/
def segRooted (p : String) : Bool :=
  p.data.head? = some '/'

/-- One sanitizer step sequence over already-split path segments, modelling the
loop shared verbatim by `EmittingState::handle_provide_file`,
`EmittingState::finish_file` and `assets.rs`'s `emit_copied_file` /
`emit_font_css`: empty segments are skipped, a `..` segment is a fatal error,
an absolute/rooted segment is a fatal error, any other segment is pushed onto
the output path. Returns the list of pushed segments. -/
def sanitizeSegs : List String → Except String (List String)
  | [] => .ok []
  | p :: rest =>
    if p.data.isEmpty then sanitizeSegs rest
    else if p = ".." then .error "illegal dest path: it contains a .. component"
    else if segRooted p then .error "illegal dest path: it contains an absolute or rooted component"
    else match sanitizeSegs rest with
      | .error e => .error e
      | .ok segs => .ok (p :: segs)

/-- Path sanitizer applied to a whole destination path string. -/
def sanitize (dest : String) : Except String (List String) :=
  sanitizeSegs (splitSlash dest)

/-- A destination path is bad when, after splitting on `/`, some non-empty
segment is `..` or absolute/rooted. This is the failure condition named by the
spec's path rule. -/
def badPath (dest : String) : Bool :=
  (splitSlash dest).any fun p => !p.data.isEmpty && (p = ".." || segRooted p)

/-- The non-empty segments of a destination path, in order: on success the
sanitizers extend the output base directory by exactly these. -/
def goodSegs (dest : String) : List String :=
  (splitSlash dest).filter fun p => !p.data.isEmpty

theorem sanitizeSegs_spec (segs : List String) :
    (∃ p ∈ segs, (!p.data.isEmpty && (p = ".." || segRooted p)) = true) →
      ∃ e, sanitizeSegs segs = .error e := by
  intro h
  induction segs with
  | nil => simp at h
  | cons p rest ih =>
    rcases h with ⟨q, hq, hbad⟩
    simp only [List.mem_cons] at hq
    rcases hq with rfl | hq
    · simp only [Bool.and_eq_true, Bool.not_eq_true', Bool.or_eq_true, decide_eq_true_eq]
        at hbad
      obtain ⟨hne, hcase⟩ := hbad
      rcases hcase with rfl | hroot
      · refine ⟨"illegal dest path: it contains a .. component", ?_⟩
        simp [sanitizeSegs]
      · simp only [sanitizeSegs, hne]
        by_cases hdd : q = ".."
        · refine ⟨"illegal dest path: it contains a .. component", ?_⟩
          simp [hdd]
        · refine ⟨"illegal dest path: it contains an absolute or rooted component", ?_⟩
          simp [hdd, hroot]
    · by_cases hempty : p.data.isEmpty
      · obtain ⟨e, he⟩ := ih ⟨q, hq, hbad⟩
        exact ⟨e, by simp [sanitizeSegs, hempty, he]⟩
      · by_cases hdd : p = ".."
        · refine ⟨"illegal dest path: it contains a .. component", ?_⟩
          simp [sanitizeSegs, hempty, hdd]
        · by_cases hroot : segRooted p
          · refine ⟨"illegal dest path: it contains an absolute or rooted component", ?_⟩
            simp [sanitizeSegs, hempty, hdd, hroot]
          · obtain ⟨e, he⟩ := ih ⟨q, hq, hbad⟩
            refine ⟨e, ?_⟩
            simp [sanitizeSegs, hempty, hdd, hroot, he]

theorem sanitizeSegs_ok (segs : List String) :
    (∀ p ∈ segs, (!p.data.isEmpty && (p = ".." || segRooted p)) = false) →
      sanitizeSegs segs = .ok (segs.filter fun p => !p.data.isEmpty) := by
  intro h
  induction segs with
  | nil => simp [sanitizeSegs]
  | cons p rest ih =>
    have hp := h p (by simp)
    have hrest := ih fun q hq => h q (by simp [hq])
    by_cases hempty : p.data.isEmpty
    · simp [sanitizeSegs, hempty, hrest, List.filter]
    · simp only [Bool.and_eq_false_iff, Bool.not_eq_false', Bool.or_eq_false_iff,
        decide_eq_false_iff_not] at hp
      rcases hp with hp | ⟨hdd, hroot⟩
      · exact absurd hp hempty
      · simp [sanitizeSegs, hempty, hdd, hroot, hrest, List.filter]

theorem sanitize_err_of_badPath (dest : String) (h : badPath dest = true) :
    ∃ e, sanitize dest = .error e := by
  apply sanitizeSegs_spec
  simpa [badPath, List.any_eq_true] using h

theorem sanitize_ok_of_goodPath (dest : String) (h : badPath dest = false) :
    sanitize dest = .ok (goodSegs dest) := by
  apply sanitizeSegs_ok
  intro p hp
  simp only [badPath, List.any_eq_false] at h
  have hb := h p hp
  revert hb
  cases (!p.data.isEmpty && (decide (p = "..") || segRooted p)) <;> simp

/-- Observable side effects performed by the engine handlers: status-backend
warnings (`tt_warning!`), input reads through the resolver (an
`input_open_name` / read / `event_input_closed` cycle, tagged with the
resolved name), file writes under the output base directory (tagged with the
pushed path segments), `FontData::from_opentype` loads, and executions of the
canvas layout pass in `handle_end_canvas`. -/
inductive Event where
  | warning (msg : String)
  | inputRead (resolvedName : String)
  | outputWrite (pathSegs : List String)
  | fontDataLoad (fdKey : Nat)
  | canvasLayout
  deriving DecidableEq

/-- Result type of every handler: the `Result` value together with the list of
observable side effects that occurred before the handler returned. -/
def Eff (α : Type) : Type :=
  Except String α × List Event

/-- Models `tectonic_io_base::OpenResult` for the input resolver: a successful
open carries the resolved name and the full text contents of the input. -/
inductive OpenRes where
  | ok (resolvedName : String) (contents : String)
  | notAvailable
  | err (msg : String)

/-- Glyph metrics as returned by the font-data collaborator's
`lookup_metrics`; per the source, `descent` is stored negative. -/
structure GlyphMetrics where
  lsb : Int
  advance : Int
  ascent : Int
  descent : Int
  deriving DecidableEq

/-- The opaque per-`fd_key` font-data object. Only the metrics query feeds the
integer fragment embedded here (the canvas bounds pass); the glyph-mapping and
CSS-emission queries are collaborator calls whose output is absorbed by the
`Env` oracles. -/
structure FontData where
  lookupMetrics : Nat → Int → Option GlyphMetrics

/-- Font roles; the source currently has only `MainBody`. -/
inductive FontRole where
  | mainBody
  deriving DecidableEq

/-- Per-font metadata stored in the font registry, mirroring `FontInfo`. -/
structure FontInfo where
  role : FontRole
  relUrl : String
  fdKey : Nat
  size : Int
  faceIndex : Nat
  colorRgba : Option Nat
  extendOpt : Option Nat
  slantOpt : Option Nat
  emboldenOpt : Option Nat
  deriving DecidableEq

/-- One glyph buffered inside a canvas, mirroring `GlyphInfo`: offsets are
relative to the canvas origin. -/
structure GlyphInfo where
  dx : Int
  dy : Int
  fontNum : Int
  glyph : Nat
  deriving DecidableEq

/-- The active canvas region, mirroring `CanvasState`. -/
structure CanvasState where
  kind : String
  depth : Nat
  x0 : Int
  y0 : Int
  glyphs : List GlyphInfo
  deriving DecidableEq

/-- Models `CanvasState::new`: a fresh canvas starts at depth 1. -/
def CanvasState.new (kind : String) (x0 y0 : Int) : CanvasState :=
  { kind := kind, depth := 1, x0 := x0, y0 := y0, glyphs := [] }

/-- Integer bounding box accumulated by the canvas bounds pass, in TeX units. -/
structure BBox where
  xMin : Int
  xMax : Int
  yMin : Int
  yMax : Int
  deriving DecidableEq

/-- The external collaborators injected into every handler: the input
resolver, the font-file loader (`FontData::from_opentype`, keyed by basename,
contents and face index), the Tera template renderer, the floating-point
render pass of `handle_end_canvas` (which formats per-glyph spans and the
wrapper element from the canvas and its integer bounding box), and the
per-font-data CSS emission used by `content_finished`. Floating-point
arithmetic and formatting live entirely behind these oracles. -/
structure Env where
  resolver : String → OpenRes
  fromOpentype : String → String → Nat → Option FontData
  render : String → List (String × String) → String
  renderWrapper : CanvasState → BBox → String
  emitFontData : Nat → String

/-- The Emitting-phase state, mirroring `EmittingState`. The Tera template
context is modelled as a string association list; `rems_per_tex` is a
floating-point scale used only inside the render-pass oracle and is therefore
not carried here. -/
structure EmittingState where
  fonts : List (Int × FontInfo)
  fontData : List (Nat × FontData)
  nextTemplatePath : String
  nextOutputPath : String
  currentContent : String
  currentCanvas : Option CanvasState
  contentFinished : Bool
  contentFinishedWarningIssued : Bool
  context : List (String × String)

/-- Models the body of `EmittingState::handle_provide_file` after the
`split_once` step: open the source through the resolver (`must_exist`),
sanitize the destination path piece by piece, create and write the output
file, then report the closed input. The write event is emitted only after the
whole destination survived sanitization, exactly as in the source where
`File::create` follows the loop. -/
def provideFileCopy (env : Env) (src dest : String) : Eff Unit :=
  match env.resolver src with
  | .err e => (.error e, [])
  | .notAvailable => (.error "unable to open provideFile source", [])
  | .ok resolvedName _ =>
    match sanitize dest with
    | .error e => (.error e, [])
    | .ok segs => (.ok (), [.outputWrite segs, .inputRead resolvedName])

/-- Models `assets.rs`'s free function `emit_copied_file`, whose body is the
same open / sanitize / copy / close sequence as the inline provideFile copy. -/
def emitCopiedFile (env : Env) (srcTexPath destPath : String) : Eff Unit :=
  match env.resolver srcTexPath with
  | .err e => (.error e, [])
  | .notAvailable => (.error "unable to open provideFile source", [])
  | .ok resolvedName _ =>
    match sanitize destPath with
    | .error e => (.error e, [])
    | .ok segs => (.ok (), [.outputWrite segs, .inputRead resolvedName])

/-- The relative-root prefix computed by `finish_file`: `"../"` repeated
`n_levels - 1` times when `n_levels` is at least 2, and empty otherwise. -/
def relTopOf (nLevels : Nat) : String :=
  if nLevels < 2 then "" else String.join (List.replicate (nLevels - 1) "../")

/-- Models `EmittingState::finish_file`: sanitize the pending output path
while counting pushed segments (`n_levels`), insert the accumulated content
and the relative-root prefix into the template context, read the pending
template fresh from the resolver (`must_exist`), render it, write the result
to the sanitized path, and reset only the content buffer. -/
def finishFile (env : Env) (s : EmittingState) : Eff EmittingState :=
  match sanitize s.nextOutputPath with
  | .error e => (.error e, [])
  | .ok segs =>
    let nLevels := segs.length
    let ctx := insertAssoc s.context "tduxContent" s.currentContent
    let ctx := insertAssoc ctx "tduxRelTop" (relTopOf nLevels)
    match env.resolver s.nextTemplatePath with
    | .err e => (.error e, [])
    | .notAvailable => (.error "unable to open input HTML template", [])
    | .ok resolvedName _ =>
      (.ok { s with context := ctx, currentContent := "" },
        [.inputRead resolvedName, .outputWrite segs])

/-- Models `EmittingState::warn_finished_content`: warn once after sealing,
then set the one-time flag. -/
def warnFinished (s : EmittingState) (detail : String) : EmittingState × List Event :=
  if s.contentFinishedWarningIssued then (s, [])
  else ({ s with contentFinishedWarningIssued := true },
    [.warning ("dropping post-finish content (" ++ detail ++ ")")])

/-- Lifts `warnFinished` into a successful handler result. -/
def warnFinishedEff (s : EmittingState) (detail : String) : Eff EmittingState :=
  ((warnFinished s detail).1, (warnFinished s detail).2) |> fun r => (.ok r.1, r.2)

/-- Appends a glyph run to the active canvas, with offsets taken relative to
the canvas origin, as both `handle_text_and_glyphs` and `handle_glyph_run` do.
A run is modelled as a list of (glyph id, x, y) triples, standing for the
parallel `glyphs`/`x`/`y` arrays of the source. -/
def pushCanvasGlyphs (c : CanvasState) (fontNum : Int)
    (glyphs : List (Nat × Int × Int)) : CanvasState :=
  { c with glyphs := c.glyphs ++ glyphs.map fun g =>
      { dx := g.2.1 - c.x0, dy := g.2.2 - c.y0, fontNum := fontNum, glyph := g.1 } }

/-- Models `EmittingState::handle_text_and_glyphs`: when sealed, warn once and
drop; inside a canvas, buffer the glyphs; otherwise append the text to the
content buffer, preceded by a single space exactly when the buffer is
non-empty and does not end with a `>`. -/
def handleTextAndGlyphs (s : EmittingState) (fontNum : Int) (text : String)
    (glyphs : List (Nat × Int × Int)) : Eff EmittingState :=
  if s.contentFinished then
    warnFinishedEff s ("text `" ++ text ++ "`")
  else match s.currentCanvas with
    | some c =>
      (.ok { s with currentCanvas := some (pushCanvasGlyphs c fontNum glyphs) }, [])
    | none =>
      let base :=
        if !s.currentContent.isEmpty && !endsWithChar s.currentContent '>' then
          s.currentContent ++ " "
        else s.currentContent
      (.ok { s with currentContent := base ++ text }, [])

/-- Models `EmittingState::handle_glyph_run`: when sealed, warn once and drop;
inside a canvas, buffer the glyphs; otherwise warn and discard the run. -/
def handleGlyphRun (s : EmittingState) (fontNum : Int)
    (glyphs : List (Nat × Int × Int)) : Eff EmittingState :=
  if s.contentFinished then
    warnFinishedEff s "glyph run"
  else match s.currentCanvas with
    | some c =>
      (.ok { s with currentCanvas := some (pushCanvasGlyphs c fontNum glyphs) }, [])
    | none =>
      (.ok s, [.warning "TODO HANDLE glyph_run OUTSIDE OF CANVAS"])

/-- One step of the canvas bounds pass in `handle_end_canvas`: resolve the
glyph's font (an undeclared font id is fatal), fetch its metrics at the font's
size, and if metrics are available merge the glyph box
(xmin = dx - lsb, xmax = dx + advance, ymin = dy - ascent, ymax = dy - descent)
into the accumulator; the `Bool` mirrors the source's `first` flag. -/
def boundsStep (fonts : List (Int × FontInfo)) (fontData : List (Nat × FontData))
    (acc : Bool × BBox) (gi : GlyphInfo) : Except String (Bool × BBox) :=
  match lookupAssoc fonts gi.fontNum with
  | none => .error "undeclared font in canvas"
  | some fi =>
    match lookupAssoc fontData fi.fdKey with
    | none => .error "font data table entry missing"
    | some fd =>
      match fd.lookupMetrics gi.glyph fi.size with
      | none => .ok acc
      | some gm =>
        let b : BBox :=
          { xMin := gi.dx - gm.lsb, xMax := gi.dx + gm.advance,
            yMin := gi.dy - gm.ascent, yMax := gi.dy - gm.descent }
        if acc.1 then .ok (false, b)
        else .ok (false,
          { xMin := min acc.2.xMin b.xMin, xMax := max acc.2.xMax b.xMax,
            yMin := min acc.2.yMin b.yMin, yMax := max acc.2.yMax b.yMax })

/-- Folds the bounds pass over the buffered glyphs. -/
def computeBoundsAux (fonts : List (Int × FontInfo)) (fontData : List (Nat × FontData)) :
    List GlyphInfo → Bool × BBox → Except String (Bool × BBox)
  | [], acc => .ok acc
  | gi :: rest, acc =>
    match boundsStep fonts fontData acc gi with
    | .error e => .error e
    | .ok acc' => computeBoundsAux fonts fontData rest acc'

/-- The canvas bounds pass: the union bounding box over all glyphs with
available metrics, starting from the zero box, mirroring the first pass of
`handle_end_canvas`. -/
def computeBounds (fonts : List (Int × FontInfo)) (fontData : List (Nat × FontData))
    (glyphs : List GlyphInfo) : Except String BBox :=
  (computeBoundsAux fonts fontData glyphs (true, ⟨0, 0, 0, 0⟩)).map Prod.snd

/-- Models `EmittingState::handle_end_canvas`: take the canvas, maybe insert a
separating space (same rule as for text), run the integer bounds pass, then
append the rendered wrapper with its absolutely-positioned glyph spans. The
floating-point render pass (per-glyph spans, CSS lengths derived from
`rems_per_tex`, baseline factors) is delegated to the `renderWrapper` oracle,
which receives the canvas and the computed integer bounding box. -/
def handleEndCanvas (env : Env) (s : EmittingState) : Eff EmittingState :=
  match s.currentCanvas with
  | none => (.error "current_canvas unwrap failed", [])
  | some canvas =>
    let base :=
      if !s.currentContent.isEmpty && !endsWithChar s.currentContent '>' then
        s.currentContent ++ " "
      else s.currentContent
    match computeBounds s.fonts s.fontData canvas.glyphs with
    | .error e => (.error e, [])
    | .ok box =>
      (.ok { s with currentCanvas := none,
                    currentContent := base ++ env.renderWrapper canvas box },
        [.canvasLayout])

/-- Models the Emitting-phase `handle_set_template_variable`: split on the
first space, else warn and ignore. -/
def handleSetTemplateVariableEmit (s : EmittingState) (remainder : String) :
    Eff EmittingState :=
  match splitOnce remainder ' ' with
  | some nv => (.ok { s with context := insertAssoc s.context nv.1 nv.2 }, [])
  | none =>
    (.ok s, [.warning ("ignoring malformatted tdux:setTemplateVariable special `"
      ++ remainder ++ "`")])

/-- Models `EmittingState::handle_provide_file`: split the remainder on the
first space into source and destination (warn and ignore when malformed), then
perform the inline copy; the state itself is unchanged. -/
def handleProvideFile (env : Env) (s : EmittingState) (remainder : String) :
    Eff EmittingState :=
  match splitOnce remainder ' ' with
  | none =>
    (.ok s, [.warning ("ignoring malformatted tdux:provideFile special `"
      ++ remainder ++ "`")])
  | some sd =>
    match provideFileCopy env sd.1 sd.2 with
    | (.error e, evs) => (.error e, evs)
    | (.ok _, evs) => (.ok s, evs)

/-- Models `EmittingState::content_finished`: warn and clear any un-emitted
content, emit the accumulated custom font files (one collaborator call per
`fd_key`, whose `@font-face` CSS output is concatenated), insert the CSS block
and the main-body font family into the context, and set the sealed flag. -/
def contentFinishedHandler (env : Env) (s : EmittingState) : Eff EmittingState :=
  let cw :=
    if !s.currentContent.isEmpty then
      ("", [Event.warning "un-emitted content at end of HTML output"])
    else (s.currentContent, ([] : List Event))
  let faces := String.join (s.fontData.map fun kv => env.emitFontData kv.1)
  let ctx := insertAssoc s.context "tduxFontFaces" faces
  let ctx := s.fonts.foldl (fun c kv =>
    if kv.2.role = .mainBody then
      insertAssoc c "tduxMainBodyFontFamily" ("tdux" ++ toString kv.2.fdKey)
    else c) ctx
  (.ok { s with currentContent := cw.1, fontData := [], contentFinished := true,
                context := ctx }, cw.2)

/-- Models `EmittingState::handle_special`: the exact chain of prefix tests of
the source, in source order. -/
def emitHandleSpecial (env : Env) (x y : Int) (s : EmittingState)
    (contents : String) : Eff EmittingState :=
  match dropPfx contents "tdux:as " with
  | some element =>
    if s.contentFinished then
      warnFinishedEff s ("auto start tag <" ++ element ++ ">")
    else
      (.ok { s with currentContent := s.currentContent ++ "<" ++ element ++ ">" }, [])
  | none =>
  match dropPfx contents "tdux:ae " with
  | some element =>
    if s.contentFinished then
      warnFinishedEff s ("auto end tag </" ++ element ++ ">")
    else
      (.ok { s with currentContent := s.currentContent ++ "</" ++ element ++ ">" }, [])
  | none =>
  match dropPfx contents "tdux:cs " with
  | some kind =>
    if s.contentFinished then
      warnFinishedEff s "canvas start"
    else match s.currentCanvas with
      | some c => (.ok { s with currentCanvas := some { c with depth := c.depth + 1 } }, [])
      | none => (.ok { s with currentCanvas := some (CanvasState.new kind x y) }, [])
  | none =>
  match dropPfx contents "tdux:ce " with
  | some _ =>
    if s.contentFinished then
      warnFinishedEff s "canvas end"
    else match s.currentCanvas with
      | some c =>
        let c' := { c with depth := c.depth - 1 }
        if c'.depth = 0 then handleEndCanvas env { s with currentCanvas := some c' }
        else (.ok { s with currentCanvas := some c' }, [])
      | none =>
        (.ok s, [.warning ("ignoring unpaired tdux:c[anvas]e[nd] special `"
          ++ contents ++ "`")])
  | none =>
  if contents = "tdux:emit" then finishFile env s
  else
  match dropPfx contents "tdux:setTemplate " with
  | some texpath => (.ok { s with nextTemplatePath := texpath }, [])
  | none =>
  match dropPfx contents "tdux:setOutputPath " with
  | some texpath => (.ok { s with nextOutputPath := texpath }, [])
  | none =>
  match dropPfx contents "tdux:setTemplateVariable " with
  | some remainder => handleSetTemplateVariableEmit s remainder
  | none =>
  match dropPfx contents "tdux:provideFile " with
  | some remainder => handleProvideFile env s remainder
  | none =>
  if contents = "tdux:contentFinished" then contentFinishedHandler env s
  else (.ok s, [])

/-- Runs a list of specials through the Emitting-phase handler, all delivered
at the same event position, threading the state and concatenating effects. -/
def runSpecials (env : Env) (x y : Int) (s : EmittingState) :
    List String → Eff EmittingState
  | [] => (.ok s, [])
  | c :: rest =>
    match emitHandleSpecial env x y s c with
    | (.ok s', evs) =>
      match runSpecials env x y s' rest with
      | (r, evs') => (r, evs ++ evs')
    | (.error e, evs) => (.error e, evs)

/-- A content-bearing event delivered to the Emitting phase: a
text-and-glyphs event, a glyph run, or a special (carrying its own event
position). -/
inductive ContentEvent where
  | text (fontNum : Int) (text : String) (glyphs : List (Nat × Int × Int))
  | glyphRun (fontNum : Int) (glyphs : List (Nat × Int × Int))
  | special (x y : Int) (contents : String)

/-- Dispatches one content event to the corresponding Emitting-phase
handler. -/
def applyContentEvent (env : Env) (s : EmittingState) : ContentEvent → Eff EmittingState
  | .text fontNum t glyphs => handleTextAndGlyphs s fontNum t glyphs
  | .glyphRun fontNum glyphs => handleGlyphRun s fontNum glyphs
  | .special x y contents => emitHandleSpecial env x y s contents

/-- Runs a list of content events, threading state and concatenating
effects. -/
def runContentEvents (env : Env) (s : EmittingState) :
    List ContentEvent → Eff EmittingState
  | [] => (.ok s, [])
  | e :: rest =>
    match applyContentEvent env s e with
    | (.ok s', evs) =>
      match runContentEvents env s' rest with
      | (r, evs') => (r, evs ++ evs')
    | (.error e, evs) => (.error e, evs)

/-- Projects the file writes (relative to the output base) out of an effect
log. -/
def writesOf (evs : List Event) : List (List String) :=
  evs.filterMap fun e => match e with | .outputWrite segs => some segs | _ => none

/-- True exactly when a handler result is the fatal-error case. -/
def isErrE {α : Type} : Except String α → Bool
  | .error _ => true
  | .ok _ => false

/-- Concrete environment used by witnesses: a resolver that finds `src.txt`
and `template.html` and nothing else, with trivial collaborator oracles. -/
def envW : Env :=
  { resolver := fun n =>
      if n = "src.txt" then .ok "src.txt" "filedata"
      else if n = "template.html" then .ok "template.html" "<html></html>"
      else .notAvailable
    fromOpentype := fun _ _ _ => some { lookupMetrics := fun _ _ => none }
    render := fun t _ => t
    renderWrapper := fun _ _ => "[canvas]"
    emitFontData := fun _ => "" }

/-- Concrete Emitting-phase state used by witnesses, with a chosen pending
output path. -/
def emitW (outPath : String) : EmittingState :=
  { fonts := [], fontData := [], nextTemplatePath := "template.html",
    nextOutputPath := outPath, currentContent := "", currentCanvas := none,
    contentFinished := false, contentFinishedWarningIssued := false, context := [] }

theorem dropPfx_append (p r : String) : dropPfx (p ++ r) p = some r := by
  unfold dropPfx
  rw [String.data_append, if_pos (List.take_left p.data r.data), List.drop_left]

theorem dropPfx_none_of_take_ne (s q : String) (n : Nat) (hn : n ≤ q.data.length)
    (h : s.data.take n ≠ q.data.take n) : dropPfx s q = none := by
  unfold dropPfx
  rw [if_neg]
  intro heq
  apply h
  have h2 := congrArg (List.take n) heq
  rwa [List.take_take, Nat.min_eq_left hn] at h2

theorem dropPfx_append_none (p r q : String) (n : Nat) (hn1 : n ≤ q.data.length)
    (hn2 : n ≤ p.data.length) (h : p.data.take n ≠ q.data.take n) :
    dropPfx (p ++ r) q = none := by
  apply dropPfx_none_of_take_ne _ _ n hn1
  rw [String.data_append, List.take_append_of_le_length hn2]
  exact h

theorem dropPfx_take (s q r : String) (h : dropPfx s q = some r) :
    s.data.take q.data.length = q.data := by
  unfold dropPfx at h
  by_cases hc : s.data.take q.data.length = q.data
  · exact hc
  · rw [if_neg hc] at h
    exact absurd h (by simp)

theorem dropPfx_none_of_some (s q1 q2 r : String) (h : dropPfx s q1 = some r)
    (hlen : q2.data.length ≤ q1.data.length)
    (hne : q1.data.take q2.data.length ≠ q2.data.take q2.data.length) :
    dropPfx s q2 = none := by
  apply dropPfx_none_of_take_ne _ _ q2.data.length (le_refl _)
  have h1 := dropPfx_take s q1 r h
  rw [← h1, List.take_take, Nat.min_eq_left hlen] at hne
  exact hne

theorem string_append_ne (p r q : String) (h : q.data.length < p.data.length) :
    ¬(p ++ r) = q := by
  intro he
  have hd := congrArg String.data he
  rw [String.data_append] at hd
  have hl := congrArg List.length hd
  simp only [List.length_append] at hl
  omega

/-- C1: for every destination path containing a non-empty `..` or
absolute/rooted segment, each of the three sanitizing operations — the file
finalize (`finish_file`), the inline provideFile copy, and the Asset Manager
`emit_copied_file` — returns a fatal error and performs no file write at all
(in particular none outside the output base); for every other path, every
write each operation performs targets the output base extended by exactly the
non-empty segments of the path, in order. -/
theorem c1_path_sanitization (dest : String) (env : Env) (src : String)
    (s : EmittingState) (hout : s.nextOutputPath = dest) :
    (badPath dest = true →
      (isErrE (provideFileCopy env src dest).1 = true ∧
        writesOf (provideFileCopy env src dest).2 = []) ∧
      (isErrE (emitCopiedFile env src dest).1 = true ∧
        writesOf (emitCopiedFile env src dest).2 = []) ∧
      (isErrE (finishFile env s).1 = true ∧
        writesOf (finishFile env s).2 = [])) ∧
    (badPath dest = false →
      sanitize dest = .ok (goodSegs dest) ∧
      (∀ l ∈ writesOf (provideFileCopy env src dest).2, l = goodSegs dest) ∧
      (∀ l ∈ writesOf (emitCopiedFile env src dest).2, l = goodSegs dest) ∧
      (∀ l ∈ writesOf (finishFile env s).2, l = goodSegs dest)) := by
  constructor
  · intro hbad
    obtain ⟨e, he⟩ := sanitize_err_of_badPath dest hbad
    refine ⟨?_, ?_, ?_⟩
    · cases hres : env.resolver src <;>
        simp [provideFileCopy, hres, he, writesOf, isErrE]
    · cases hres : env.resolver src <;>
        simp [emitCopiedFile, hres, he, writesOf, isErrE]
    · simp [finishFile, hout, he, writesOf, isErrE]
  · intro hgood
    have hok := sanitize_ok_of_goodPath dest hgood
    refine ⟨hok, ?_, ?_, ?_⟩
    · cases hres : env.resolver src <;>
        simp [provideFileCopy, hres, hok, writesOf]
    · cases hres : env.resolver src <;>
        simp [emitCopiedFile, hres, hok, writesOf]
    · cases hres : env.resolver s.nextTemplatePath <;>
        simp [finishFile, hout, hres, hok, writesOf]

/-- Witness for C1 at the concrete bad path `../x` and the concrete good path
`a/b.css`. -/
theorem c1_path_sanitization_witness :
    (isErrE (provideFileCopy envW "src.txt" "../x").1 = true ∧
      writesOf (provideFileCopy envW "src.txt" "../x").2 = []) ∧
    sanitize "a/b.css" = .ok (goodSegs "a/b.css") ∧
    goodSegs "a/b.css" = ["a", "b.css"] := by
  refine ⟨((c1_path_sanitization "../x" envW "src.txt" (emitW "../x") rfl).1
    (by decide)).1, ?_, by decide⟩
  exact ((c1_path_sanitization "a/b.css" envW "src.txt" (emitW "a/b.css") rfl).2
    (by decide)).1

/-- C10: a glyph_run event arriving in the Emitting phase with no active
canvas and content not sealed logs one warning and discards the glyphs: the
whole engine state (content buffer, font registry, canvas, pending paths) is
returned unchanged and the operation succeeds. -/
theorem c10_glyph_run_outside_canvas (s : EmittingState) (fontNum : Int)
    (glyphs : List (Nat × Int × Int)) (h1 : s.currentCanvas = none)
    (h2 : s.contentFinished = false) :
    handleGlyphRun s fontNum glyphs =
      (.ok s, [.warning "TODO HANDLE glyph_run OUTSIDE OF CANVAS"]) := by
  simp [handleGlyphRun, h1, h2]

/-- Witness for C10 at a concrete state and glyph run. -/
theorem c10_glyph_run_outside_canvas_witness :
    handleGlyphRun (emitW "index.html") 1 [(5, 100, 200)] =
      (.ok (emitW "index.html"), [.warning "TODO HANDLE glyph_run OUTSIDE OF CANVAS"]) :=
  c10_glyph_run_outside_canvas (emitW "index.html") 1 [(5, 100, 200)] rfl rfl

/-- C5: with no active canvas and content not sealed, text is appended to the
buffer preceded by a single space exactly when the buffer is non-empty and
does not end with `>`; consequently the sequence text "Hello", `as em`, text
"world", `ae em` starting from an empty buffer yields exactly
`Hello<em>world</em>`. -/
theorem c5_text_spacing (env : Env) (s : EmittingState) (fontNum : Int)
    (t : String) (glyphs : List (Nat × Int × Int))
    (hf : s.contentFinished = false) (hc : s.currentCanvas = none) :
    handleTextAndGlyphs s fontNum t glyphs =
      (.ok { s with currentContent :=
        (if !s.currentContent.isEmpty && !endsWithChar s.currentContent '>' then
          s.currentContent ++ " " else s.currentContent) ++ t }, []) ∧
    (s.currentContent = "" →
      ∃ s', runContentEvents env s
          [.text fontNum "Hello" glyphs, .special 0 0 "tdux:as em",
            .text fontNum "world" glyphs, .special 0 0 "tdux:ae em"] =
          (.ok s', []) ∧ s'.currentContent = "Hello<em>world</em>") := by
  constructor
  · simp [handleTextAndGlyphs, hf, hc]
  · intro hcc
    have e1 : handleTextAndGlyphs s fontNum "Hello" glyphs =
        (.ok { s with currentContent := "Hello" }, []) := by
      simp +decide [handleTextAndGlyphs, hf, hc, hcc]
    have e2 : emitHandleSpecial env 0 0 { s with currentContent := "Hello" }
        "tdux:as em" =
        (.ok { s with currentContent := "Hello<em>" }, []) := by
      have hd : dropPfx "tdux:as em" "tdux:as " = some "em" := by decide
      simp +decide [emitHandleSpecial, hd, hf]
    have e3 : handleTextAndGlyphs { s with currentContent := "Hello<em>" }
        fontNum "world" glyphs =
        (.ok { s with currentContent := "Hello<em>world" }, []) := by
      simp +decide [handleTextAndGlyphs, hf, hc]
    have e4 : emitHandleSpecial env 0 0 { s with currentContent := "Hello<em>world" }
        "tdux:ae em" =
        (.ok { s with currentContent := "Hello<em>world</em>" }, []) := by
      have hd1 : dropPfx "tdux:ae em" "tdux:as " = none := by decide
      have hd2 : dropPfx "tdux:ae em" "tdux:ae " = some "em" := by decide
      simp +decide [emitHandleSpecial, hd1, hd2, hf]
    refine ⟨{ s with currentContent := "Hello<em>world</em>" }, ?_, rfl⟩
    simp [runContentEvents, applyContentEvent, e1, e2, e3, e4]

/-- Witness for C5 at a concrete state. -/
theorem c5_text_spacing_witness :
    ∃ s', runContentEvents envW (emitW "index.html")
        [.text 1 "Hello" [], .special 0 0 "tdux:as em",
          .text 1 "world" [], .special 0 0 "tdux:ae em"] =
        (.ok s', []) ∧ s'.currentContent = "Hello<em>world</em>" :=
  (c5_text_spacing envW (emitW "index.html") 1 "x" [] rfl rfl).2 rfl

/-- Helper: the canvas record of kind `k` at depth `d`, origin `(x, y)`, with
no buffered glyphs. -/
def canvasAt (k : String) (d : Nat) (x y : Int) : CanvasState :=
  { kind := k, depth := d, x0 := x, y0 := y, glyphs := [] }

theorem emitHandleSpecial_cs (env : Env) (x y : Int) (s : EmittingState) (k : String)
    (hf : s.contentFinished = false) :
    emitHandleSpecial env x y s ("tdux:cs " ++ k) =
      match s.currentCanvas with
      | some c => (.ok { s with currentCanvas := some { c with depth := c.depth + 1 } }, [])
      | none => (.ok { s with currentCanvas := some (CanvasState.new k x y) }, []) := by
  have h1 : dropPfx ("tdux:cs " ++ k) "tdux:as " = none :=
    dropPfx_append_none _ _ _ 8 (by decide) (by decide) (by decide)
  have h2 : dropPfx ("tdux:cs " ++ k) "tdux:ae " = none :=
    dropPfx_append_none _ _ _ 8 (by decide) (by decide) (by decide)
  have h3 : dropPfx ("tdux:cs " ++ k) "tdux:cs " = some k := dropPfx_append _ _
  simp [emitHandleSpecial, h1, h2, h3, hf]

theorem emitHandleSpecial_ce (env : Env) (x y : Int) (s : EmittingState) (k : String)
    (hf : s.contentFinished = false) :
    emitHandleSpecial env x y s ("tdux:ce " ++ k) =
      match s.currentCanvas with
      | some c =>
        if c.depth - 1 = 0 then
          handleEndCanvas env { s with currentCanvas := some { c with depth := c.depth - 1 } }
        else (.ok { s with currentCanvas := some { c with depth := c.depth - 1 } }, [])
      | none =>
        (.ok s, [.warning ("ignoring unpaired tdux:c[anvas]e[nd] special `"
          ++ ("tdux:ce " ++ k) ++ "`")]) := by
  have h1 : dropPfx ("tdux:ce " ++ k) "tdux:as " = none :=
    dropPfx_append_none _ _ _ 8 (by decide) (by decide) (by decide)
  have h2 : dropPfx ("tdux:ce " ++ k) "tdux:ae " = none :=
    dropPfx_append_none _ _ _ 8 (by decide) (by decide) (by decide)
  have h3 : dropPfx ("tdux:ce " ++ k) "tdux:cs " = none :=
    dropPfx_append_none _ _ _ 8 (by decide) (by decide) (by decide)
  have h4 : dropPfx ("tdux:ce " ++ k) "tdux:ce " = some k := dropPfx_append _ _
  simp [emitHandleSpecial, h1, h2, h3, h4, hf]

theorem runSpecials_cs_some (env : Env) (x y : Int) (k : String) (i : Nat)
    (s : EmittingState) (c : CanvasState)
    (hf : s.contentFinished = false) (hc : s.currentCanvas = some c) :
    runSpecials env x y s (List.replicate i ("tdux:cs " ++ k)) =
      (.ok { s with currentCanvas := some { c with depth := c.depth + i } }, []) := by
  induction i generalizing s c with
  | zero =>
    simp only [List.replicate, runSpecials]
    cases s
    cases c
    simp_all
  | succ n ih =>
    rw [List.replicate_succ]
    simp only [runSpecials]
    rw [emitHandleSpecial_cs env x y s k hf]
    simp only [hc]
    rw [ih { s with currentCanvas := some { c with depth := c.depth + 1 } }
      { c with depth := c.depth + 1 } (by simpa) rfl]
    have harith : c.depth + 1 + n = c.depth + (n + 1) := by omega
    simp [harith]

theorem runSpecials_ce_some (env : Env) (x y : Int) (k : String) (j : Nat)
    (s : EmittingState) (c : CanvasState)
    (hf : s.contentFinished = false) (hc : s.currentCanvas = some c)
    (hj : j < c.depth) :
    runSpecials env x y s (List.replicate j ("tdux:ce " ++ k)) =
      (.ok { s with currentCanvas := some { c with depth := c.depth - j } }, []) := by
  induction j generalizing s c with
  | zero =>
    simp only [List.replicate, runSpecials]
    cases s
    cases c
    simp_all
  | succ n ih =>
    rw [List.replicate_succ]
    simp only [runSpecials]
    rw [emitHandleSpecial_ce env x y s k hf]
    simp only [hc]
    have hne : ¬(c.depth - 1 = 0) := by omega
    simp only [if_neg hne]
    rw [ih { s with currentCanvas := some { c with depth := c.depth - 1 } }
      { c with depth := c.depth - 1 } (by simpa) rfl (by simp; omega)]
    have harith : c.depth - 1 - n = c.depth - (n + 1) := by omega
    simp [harith]

theorem emitHandleSpecial_ce_last (env : Env) (x y : Int) (k : String)
    (s : EmittingState) (c : CanvasState)
    (hf : s.contentFinished = false) (hc : s.currentCanvas = some c)
    (hd : c.depth = 1) (hg : c.glyphs = []) :
    emitHandleSpecial env x y s ("tdux:ce " ++ k) =
      (.ok { s with currentCanvas := none, currentContent :=
        (if !s.currentContent.isEmpty && !endsWithChar s.currentContent '>' then
          s.currentContent ++ " " else s.currentContent)
        ++ env.renderWrapper { c with depth := 0 } ⟨0, 0, 0, 0⟩ },
        [.canvasLayout]) := by
  rw [emitHandleSpecial_ce env x y s k hf]
  simp [hc, hd, handleEndCanvas, computeBounds, computeBoundsAux, hg, Except.map]

theorem runSpecials_cons_ok (env : Env) (x y : Int) (s s1 : EmittingState)
    (c : String) (rest : List String) (evs : List Event)
    (h : emitHandleSpecial env x y s c = (.ok s1, evs)) :
    runSpecials env x y s (c :: rest) =
      ((runSpecials env x y s1 rest).1, evs ++ (runSpecials env x y s1 rest).2) := by
  simp only [runSpecials]
  rw [h]
  rfl

theorem runSpecials_ce_all (env : Env) (x y : Int) (k : String) (d : Nat) :
    ∀ (s : EmittingState) (c : CanvasState), s.contentFinished = false →
      s.currentCanvas = some c → c.glyphs = [] → c.depth = d + 1 →
      ∃ s', runSpecials env x y s (List.replicate (d + 1) ("tdux:ce " ++ k)) =
        (.ok s', [.canvasLayout]) ∧ s'.currentCanvas = none := by
  induction d with
  | zero =>
    intro s c hf hcv hg hd
    rw [List.replicate_one]
    rw [runSpecials_cons_ok env x y s _ _ [] _
      (emitHandleSpecial_ce_last env x y k s c hf hcv hd hg)]
    exact ⟨_, rfl, rfl⟩
  | succ n ih =>
    intro s c hf hcv hg hd
    have hne : ¬(c.depth - 1 = 0) := by omega
    have hstep : emitHandleSpecial env x y s ("tdux:ce " ++ k) =
        (.ok { s with currentCanvas := some { c with depth := c.depth - 1 } }, []) := by
      rw [emitHandleSpecial_ce env x y s k hf]
      simp [hcv, if_neg hne]
    rw [List.replicate_succ]
    rw [runSpecials_cons_ok env x y s _ _ _ _ hstep]
    obtain ⟨s', h1, h2⟩ := ih
      { s with currentCanvas := some { c with depth := c.depth - 1 } }
      { c with depth := c.depth - 1 } (by simpa) rfl (by simpa) (by simp [hd])
    rw [h1]
    exact ⟨s', by simp, h2⟩

theorem runSpecials_append_ok (env : Env) (x y : Int) (l1 l2 : List String)
    (s s1 : EmittingState) (e1 : List Event)
    (h : runSpecials env x y s l1 = (.ok s1, e1)) :
    runSpecials env x y s (l1 ++ l2) =
      ((runSpecials env x y s1 l2).1, e1 ++ (runSpecials env x y s1 l2).2) := by
  induction l1 generalizing s e1 with
  | nil =>
    simp only [runSpecials, Prod.mk.injEq, Except.ok.injEq] at h
    obtain ⟨rfl, rfl⟩ := h
    simp
  | cons a rest ih =>
    rw [List.cons_append]
    simp only [runSpecials] at h ⊢
    rcases hh : emitHandleSpecial env x y s a with ⟨r, evs⟩
    rw [hh] at h
    cases r with
    | error e => exact Except.noConfusion (congrArg Prod.fst h)
    | ok s' =>
      replace h : ((runSpecials env x y s' rest).1,
          evs ++ (runSpecials env x y s' rest).2) = (Except.ok s1, e1) := h
      show ((runSpecials env x y s' (rest ++ l2)).1,
          evs ++ (runSpecials env x y s' (rest ++ l2)).2) =
        ((runSpecials env x y s1 l2).1, e1 ++ (runSpecials env x y s1 l2).2)
      rcases hr : runSpecials env x y s' rest with ⟨r2, evs2⟩
      rw [hr] at h
      cases r2 with
      | error e => exact Except.noConfusion (congrArg Prod.fst h)
      | ok s'' =>
        simp only [Prod.mk.injEq, Except.ok.injEq] at h
        obtain ⟨rfl, rfl⟩ := h
        rw [ih s' evs2 hr]
        simp

/-- C4: for N at least 1, a sequence of N canvas-open specials of one kind
followed by N canvas-close specials, with content not sealed, runs the canvas
layout pass and clears the canvas exactly once, at the N-th close and never
earlier: the first `cs` sets depth 1, each further `cs` increments depth, each
`ce` decrements it (with the region popped at depth 0), a prefix with fewer
closes than opens performs no layout, and a `ce` with no active canvas only
logs a warning, leaving the state unchanged. -/
theorem c4_canvas_depth (env : Env) (x y : Int) (k : String) (s : EmittingState)
    (N : Nat) (hN : 1 ≤ N) (hc : s.currentCanvas = none)
    (hf : s.contentFinished = false) :
    (∀ i, 1 ≤ i → runSpecials env x y s (List.replicate i ("tdux:cs " ++ k)) =
      (.ok { s with currentCanvas := some (canvasAt k i x y) }, [])) ∧
    (∀ j, j < N → runSpecials env x y s
        (List.replicate N ("tdux:cs " ++ k) ++ List.replicate j ("tdux:ce " ++ k)) =
      (.ok { s with currentCanvas := some (canvasAt k (N - j) x y) }, [])) ∧
    (∃ s', runSpecials env x y s
        (List.replicate N ("tdux:cs " ++ k) ++ List.replicate N ("tdux:ce " ++ k)) =
      (.ok s', [.canvasLayout]) ∧ s'.currentCanvas = none) ∧
    (emitHandleSpecial env x y s ("tdux:ce " ++ k) =
      (.ok s, [.warning ("ignoring unpaired tdux:c[anvas]e[nd] special `"
        ++ ("tdux:ce " ++ k) ++ "`")])) := by
  have hopen : ∀ i, 1 ≤ i → runSpecials env x y s (List.replicate i ("tdux:cs " ++ k)) =
      (.ok { s with currentCanvas := some (canvasAt k i x y) }, []) := by
    intro i hi
    obtain ⟨n, rfl⟩ := Nat.exists_eq_add_of_le hi
    rw [List.replicate_add, List.replicate_one]
    have hstep : runSpecials env x y s ["tdux:cs " ++ k] =
        (.ok { s with currentCanvas := some (CanvasState.new k x y) }, []) := by
      simp only [runSpecials]
      rw [emitHandleSpecial_cs env x y s k hf]
      simp [hc, runSpecials]
    rw [runSpecials_append_ok env x y _ _ _ _ _ hstep]
    rw [runSpecials_cs_some env x y k n
      { s with currentCanvas := some (CanvasState.new k x y) }
      (CanvasState.new k x y) (by simpa) rfl]
    simp [CanvasState.new, canvasAt, Nat.add_comm]
  refine ⟨hopen, ?_, ?_, ?_⟩
  · intro j hj
    rw [runSpecials_append_ok env x y _ _ _ _ _ (hopen N hN)]
    rw [runSpecials_ce_some env x y k j
      { s with currentCanvas := some (canvasAt k N x y) }
      (canvasAt k N x y) (by simpa) rfl (by simpa [canvasAt])]
    simp [canvasAt]
  · obtain ⟨n, rfl⟩ : ∃ n, N = n + 1 := ⟨N - 1, by omega⟩
    rw [runSpecials_append_ok env x y _ _ _ _ _ (hopen (n + 1) hN)]
    obtain ⟨s', h1, h2⟩ := runSpecials_ce_all env x y k n
      { s with currentCanvas := some (canvasAt k (n + 1) x y) }
      (canvasAt k (n + 1) x y) (by simpa) rfl rfl rfl
    rw [h1]
    exact ⟨s', by simp, h2⟩
  · rw [emitHandleSpecial_ce env x y s k hf]
    simp [hc]

/-- Witness for C4 at N = 2 with kind `math` and a concrete state. -/
theorem c4_canvas_depth_witness :
    ∃ s', runSpecials envW 3 4 (emitW "index.html")
        (List.replicate 2 ("tdux:cs " ++ "math") ++ List.replicate 2 ("tdux:ce " ++ "math")) =
      (.ok s', [.canvasLayout]) ∧ s'.currentCanvas = none :=
  (c4_canvas_depth envW 3 4 "math" (emitW "index.html") 2 (by decide) rfl rfl).2.2.1

/-- The content-bearing specials named by the sealing rule: auto start/end
tags and canvas open/close. -/
def isContentSpecial (c : String) : Bool :=
  startsW c "tdux:as " || startsW c "tdux:ae " || startsW c "tdux:cs " ||
    startsW c "tdux:ce "

/-- The content events covered by the post-sealing rule: text-and-glyphs,
glyph runs, and the content-bearing specials. -/
def allowedPostSeal : ContentEvent → Bool
  | .text _ _ _ => true
  | .glyphRun _ _ => true
  | .special _ _ c => isContentSpecial c

theorem emitHandleSpecial_sealed (env : Env) (x y : Int) (s : EmittingState)
    (contents : String) (hf : s.contentFinished = true)
    (hcs : isContentSpecial contents = true) :
    ∃ d, emitHandleSpecial env x y s contents = warnFinishedEff s d := by
  simp only [isContentSpecial, Bool.or_eq_true, startsW, Option.isSome_iff_exists] at hcs
  rcases hcs with ((⟨e, he⟩ | ⟨e, he⟩) | ⟨e, he⟩) | ⟨e, he⟩
  · refine ⟨"auto start tag <" ++ e ++ ">", ?_⟩
    simp [emitHandleSpecial, he, hf]
  · have h1 : dropPfx contents "tdux:as " = none :=
      dropPfx_none_of_some _ _ _ _ he (by decide) (by decide)
    refine ⟨"auto end tag </" ++ e ++ ">", ?_⟩
    simp [emitHandleSpecial, h1, he, hf]
  · have h1 : dropPfx contents "tdux:as " = none :=
      dropPfx_none_of_some _ _ _ _ he (by decide) (by decide)
    have h2 : dropPfx contents "tdux:ae " = none :=
      dropPfx_none_of_some _ _ _ _ he (by decide) (by decide)
    refine ⟨"canvas start", ?_⟩
    simp [emitHandleSpecial, h1, h2, he, hf]
  · have h1 : dropPfx contents "tdux:as " = none :=
      dropPfx_none_of_some _ _ _ _ he (by decide) (by decide)
    have h2 : dropPfx contents "tdux:ae " = none :=
      dropPfx_none_of_some _ _ _ _ he (by decide) (by decide)
    have h3 : dropPfx contents "tdux:cs " = none :=
      dropPfx_none_of_some _ _ _ _ he (by decide) (by decide)
    refine ⟨"canvas end", ?_⟩
    simp [emitHandleSpecial, h1, h2, h3, he, hf]

theorem applyContentEvent_sealed (env : Env) (s : EmittingState) (ev : ContentEvent)
    (hf : s.contentFinished = true) (hall : allowedPostSeal ev = true) :
    ∃ d, applyContentEvent env s ev = warnFinishedEff s d := by
  cases ev with
  | text fontNum t glyphs =>
    refine ⟨"text `" ++ t ++ "`", ?_⟩
    simp [applyContentEvent, handleTextAndGlyphs, hf]
  | glyphRun fontNum glyphs =>
    refine ⟨"glyph run", ?_⟩
    simp [applyContentEvent, handleGlyphRun, hf]
  | special x y c =>
    exact emitHandleSpecial_sealed env x y s c hf (by simpa [allowedPostSeal] using hall)

theorem runContentEvents_cons_ok (env : Env) (s s1 : EmittingState)
    (ev : ContentEvent) (rest : List ContentEvent) (evs : List Event)
    (h : applyContentEvent env s ev = (.ok s1, evs)) :
    runContentEvents env s (ev :: rest) =
      ((runContentEvents env s1 rest).1, evs ++ (runContentEvents env s1 rest).2) := by
  simp only [runContentEvents]
  rw [h]
  rfl

theorem runContentEvents_sealed_steady (env : Env) (evs : List ContentEvent) :
    ∀ s : EmittingState, s.contentFinished = true →
      s.contentFinishedWarningIssued = true →
      (∀ e ∈ evs, allowedPostSeal e = true) →
      runContentEvents env s evs = (.ok s, []) := by
  induction evs with
  | nil => intro s _ _ _; simp [runContentEvents]
  | cons e rest ih =>
    intro s hf hw hall
    obtain ⟨d, hd⟩ := applyContentEvent_sealed env s e hf (hall e (by simp))
    have hd' : applyContentEvent env s e = (.ok s, []) := by
      rw [hd]
      simp [warnFinishedEff, warnFinished, hw]
    rw [runContentEvents_cons_ok env s s e rest [] hd']
    rw [ih s hf hw fun e' he' => hall e' (by simp [he'])]
    rfl

/-- C8: once content is sealed, every subsequent content event (text,
glyph run, auto tags, canvas open/close) leaves the content buffer — indeed
the whole state except the one-time-warning flag — unchanged, and across any
non-empty post-sealing sequence exactly one warning is logged: the first event
warns and all later ones are silent. -/
theorem c8_sealed_content (env : Env) (s : EmittingState) (evs : List ContentEvent)
    (h1 : s.contentFinished = true) (h2 : s.contentFinishedWarningIssued = false)
    (hall : ∀ e ∈ evs, allowedPostSeal e = true) (hne : evs ≠ []) :
    ∃ msg s', runContentEvents env s evs = (.ok s', [Event.warning msg]) ∧
      s' = { s with contentFinishedWarningIssued := true } ∧
      s'.currentContent = s.currentContent := by
  cases evs with
  | nil => exact absurd rfl hne
  | cons e rest =>
    obtain ⟨d, hd⟩ := applyContentEvent_sealed env s e h1 (hall e (by simp))
    have hd' : applyContentEvent env s e =
        (.ok { s with contentFinishedWarningIssued := true },
          [.warning ("dropping post-finish content (" ++ d ++ ")")]) := by
      rw [hd]
      simp [warnFinishedEff, warnFinished, h2]
    rw [runContentEvents_cons_ok env s _ e rest _ hd']
    rw [runContentEvents_sealed_steady env rest
      { s with contentFinishedWarningIssued := true } (by simpa) rfl
      fun e' he' => hall e' (by simp [he'])]
    exact ⟨_, _, rfl, rfl, rfl⟩

/-- Witness for C8 at a concrete sealed state and three concrete content
events. -/
theorem c8_sealed_content_witness :
    ∃ msg s', runContentEvents envW
        { emitW "index.html" with contentFinished := true }
        [.text 1 "a" [], .glyphRun 1 [], .special 0 0 "tdux:cs math"] =
      (.ok s', [Event.warning msg]) ∧
      s' = { { emitW "index.html" with contentFinished := true } with
        contentFinishedWarningIssued := true } ∧
      s'.currentContent = ({ emitW "index.html" with
        contentFinished := true } : EmittingState).currentContent := by
  refine c8_sealed_content envW _ _ rfl rfl ?_ (by simp)
  intro e he
  fin_cases he <;> decide

/-- The glyph box of one glyph when its owning font, font data, and metrics
all resolve: xmin = dx - lsb, xmax = dx + advance, ymin = dy - ascent,
ymax = dy - descent (descent stored negative). -/
def resolveBox (fonts : List (Int × FontInfo)) (fontData : List (Nat × FontData))
    (gi : GlyphInfo) : Option BBox :=
  match lookupAssoc fonts gi.fontNum with
  | none => none
  | some fi =>
    match lookupAssoc fontData fi.fdKey with
    | none => none
    | some fd =>
      match fd.lookupMetrics gi.glyph fi.size with
      | none => none
      | some gm =>
        some { xMin := gi.dx - gm.lsb, xMax := gi.dx + gm.advance,
               yMin := gi.dy - gm.ascent, yMax := gi.dy - gm.descent }

/-- Coordinate-wise min/max union of two boxes. -/
def mergeBBox (a b : BBox) : BBox :=
  { xMin := min a.xMin b.xMin, xMax := max a.xMax b.xMax,
    yMin := min a.yMin b.yMin, yMax := max a.yMax b.yMax }

/-- Union of a list of boxes; the empty list yields the zero box, matching the
`first` flag initialisation of the bounds pass. -/
def unionBoxes : List BBox → BBox
  | [] => { xMin := 0, xMax := 0, yMin := 0, yMax := 0 }
  | b :: rest => rest.foldl mergeBBox b

theorem computeBoundsAux_false (fonts : List (Int × FontInfo))
    (fontData : List (Nat × FontData)) (glyphs : List GlyphInfo) :
    ∀ b : BBox, (∀ gi ∈ glyphs, ∃ fi, lookupAssoc fonts gi.fontNum = some fi ∧
        (lookupAssoc fontData fi.fdKey).isSome = true) →
      computeBoundsAux fonts fontData glyphs (false, b) =
        .ok (false, (glyphs.filterMap (resolveBox fonts fontData)).foldl mergeBBox b) := by
  induction glyphs with
  | nil => intro b _; simp [computeBoundsAux]
  | cons gi rest ih =>
    intro b hdecl
    obtain ⟨fi, hfi, hfd⟩ := hdecl gi (by simp)
    rw [Option.isSome_iff_exists] at hfd
    obtain ⟨fd, hfd⟩ := hfd
    cases hm : fd.lookupMetrics gi.glyph fi.size with
    | none =>
      simp only [computeBoundsAux, boundsStep, hfi, hfd, hm]
      rw [ih b fun g hg => hdecl g (by simp [hg])]
      simp [List.filterMap_cons, resolveBox, hfi, hfd, hm]
    | some gm =>
      simp only [computeBoundsAux, boundsStep, hfi, hfd, hm, Bool.false_eq_true,
        if_false, reduceCtorEq]
      rw [ih _ fun g hg => hdecl g (by simp [hg])]
      simp [List.filterMap_cons, resolveBox, hfi, hfd, hm, mergeBBox]

theorem computeBoundsAux_true (fonts : List (Int × FontInfo))
    (fontData : List (Nat × FontData)) (glyphs : List GlyphInfo) (b0 : BBox)
    (hdecl : ∀ gi ∈ glyphs, ∃ fi, lookupAssoc fonts gi.fontNum = some fi ∧
      (lookupAssoc fontData fi.fdKey).isSome = true) :
    computeBoundsAux fonts fontData glyphs (true, b0) =
      .ok (match glyphs.filterMap (resolveBox fonts fontData) with
        | [] => (true, b0)
        | bx :: rest => (false, rest.foldl mergeBBox bx)) := by
  induction glyphs with
  | nil => simp [computeBoundsAux]
  | cons gi rest ih =>
    obtain ⟨fi, hfi, hfd⟩ := hdecl gi (by simp)
    rw [Option.isSome_iff_exists] at hfd
    obtain ⟨fd, hfd⟩ := hfd
    cases hm : fd.lookupMetrics gi.glyph fi.size with
    | none =>
      simp only [computeBoundsAux, boundsStep, hfi, hfd, hm]
      rw [ih fun g hg => hdecl g (by simp [hg])]
      simp [List.filterMap_cons, resolveBox, hfi, hfd, hm]
    | some gm =>
      simp only [computeBoundsAux, boundsStep, hfi, hfd, hm, if_true]
      rw [computeBoundsAux_false fonts fontData rest _
        fun g hg => hdecl g (by simp [hg])]
      simp [List.filterMap_cons, resolveBox, hfi, hfd, hm]

/-- C6 (amended): the bounds pass computes, for each buffered glyph whose font
metrics are available, the box xmin = dx - lsb, xmax = dx + advance,
ymin = dy - ascent, ymax = dy - descent, and returns the coordinate-wise
min/max union over exactly the glyphs with available metrics; glyphs lacking
metrics are excluded without error, and a canvas with no resolvable glyphs
yields the zero box. For a single glyph at canvas-relative offset (10, 5) with
lsb 2, advance 10, ascent 15, descent -3 this gives xmin 8, xmax 20, ymin -10
and ymax 8 (the claim's value 13 contradicts the formula dy - descent). -/
theorem c6_bounds_union (fonts : List (Int × FontInfo))
    (fontData : List (Nat × FontData)) (glyphs : List GlyphInfo)
    (hdecl : ∀ gi ∈ glyphs, ∃ fi, lookupAssoc fonts gi.fontNum = some fi ∧
      (lookupAssoc fontData fi.fdKey).isSome = true) :
    computeBounds fonts fontData glyphs =
      .ok (unionBoxes (glyphs.filterMap (resolveBox fonts fontData))) := by
  unfold computeBounds
  rw [computeBoundsAux_true fonts fontData glyphs _ hdecl]
  cases glyphs.filterMap (resolveBox fonts fontData) with
  | nil => simp [Except.map, unionBoxes]
  | cons bx rest => simp [Except.map, unionBoxes]

/-- Concrete fonts table used for the C6 scenario: one font with id 1 and
`fd_key` 0. -/
def fontsC6 : List (Int × FontInfo) :=
  [(1, { role := .mainBody, relUrl := "f.otf", fdKey := 0, size := 655360,
         faceIndex := 0, colorRgba := none, extendOpt := none, slantOpt := none,
         emboldenOpt := none })]

/-- Concrete font-data table for the C6 scenario: glyph 7 has metrics
lsb 2, advance 10, ascent 15, descent -3; all other glyphs lack metrics. -/
def fontDataC6 : List (Nat × FontData) :=
  [(0, { lookupMetrics := fun g _ =>
    if g = 7 then some { lsb := 2, advance := 10, ascent := 15, descent := -3 }
    else none })]

/-- The C6 scenario glyph at canvas-relative offset (10, 5). -/
def glyphC6 : GlyphInfo :=
  { dx := 10, dy := 5, fontNum := 1, glyph := 7 }

/-- Counterexample for C6 as stated: at the claim's own concrete input the
bounds pass yields ymax = 8, not 13. -/
theorem c6_counterexample :
    computeBounds fontsC6 fontDataC6 [glyphC6] =
      .ok { xMin := 8, xMax := 20, yMin := -10, yMax := 8 } ∧
    ({ xMin := 8, xMax := 20, yMin := -10, yMax := 8 } : BBox) ≠
      { xMin := 8, xMax := 20, yMin := -10, yMax := 13 } := by
  exact ⟨rfl, by decide⟩

/-- Witness for C6 (amended) at the concrete scenario input, and at a glyph
whose metrics are missing (yielding the zero box). -/
theorem c6_bounds_union_witness :
    (computeBounds fontsC6 fontDataC6 [glyphC6] =
      .ok (unionBoxes ([glyphC6].filterMap (resolveBox fontsC6 fontDataC6)))) ∧
    unionBoxes ([glyphC6].filterMap (resolveBox fontsC6 fontDataC6)) =
      { xMin := 8, xMax := 20, yMin := -10, yMax := 8 } ∧
    computeBounds fontsC6 fontDataC6 [{ glyphC6 with glyph := 9 }] =
      .ok { xMin := 0, xMax := 0, yMin := 0, yMax := 0 } := by
  refine ⟨?_, by decide, ?_⟩
  · exact c6_bounds_union fontsC6 fontDataC6 [glyphC6] (by
      intro gi hgi
      rw [List.mem_singleton] at hgi
      subst hgi
      exact ⟨_, rfl, rfl⟩)
  · have h := c6_bounds_union fontsC6 fontDataC6 [{ glyphC6 with glyph := 9 }] (by
      intro gi hgi
      rw [List.mem_singleton] at hgi
      subst hgi
      exact ⟨_, rfl, rfl⟩)
    rw [h]
    rfl

theorem lookupAssoc_insert_self {α β : Type} [DecidableEq α]
    (m : List (α × β)) (k : α) (v : β) :
    lookupAssoc (insertAssoc m k v) k = some v := by
  induction m with
  | nil => simp [insertAssoc, lookupAssoc]
  | cons kv rest ih =>
    rcases kv with ⟨k', v'⟩
    by_cases h : k' = k
    · simp [insertAssoc, lookupAssoc, h]
    · simp [insertAssoc, lookupAssoc, h, ih]

/-- C7 (amended): file finalize counts the non-empty segments of the pending
output path as its level count and stores the relative-root prefix `"../"`
repeated levels - 1 times when levels ≥ 2 and the empty string otherwise; for
`a/b/index.html` the level count is 3 and the prefix is `"../../"` (two
repetitions; the claim's level count 2 and single `"../"` contradict the
segment count of that path). -/
theorem c7_relative_root (env : Env) (s : EmittingState) (dest rn rc : String)
    (hout : s.nextOutputPath = dest) (hgood : badPath dest = false)
    (hres : env.resolver s.nextTemplatePath = .ok rn rc) :
    ∃ s', finishFile env s = (.ok s', [.inputRead rn, .outputWrite (goodSegs dest)]) ∧
      lookupAssoc s'.context "tduxRelTop" = some (relTopOf (goodSegs dest).length) ∧
      goodSegs dest = (splitSlash dest).filter (fun p => !p.data.isEmpty) := by
  have hok := sanitize_ok_of_goodPath dest hgood
  have h1 : finishFile env s = (.ok { s with
      context := insertAssoc (insertAssoc s.context "tduxContent" s.currentContent)
        "tduxRelTop" (relTopOf (goodSegs dest).length),
      currentContent := "" },
    [.inputRead rn, .outputWrite (goodSegs dest)]) := by
    simp only [finishFile, hout, hok, hres]
  exact ⟨_, h1, lookupAssoc_insert_self _ _ _, rfl⟩

/-- Counterexample for C7 as stated: for the claim's own input
`a/b/index.html` the computed relative-root prefix is `"../../"`, not `"../"`,
and the level count is 3, not 2. -/
theorem c7_counterexample :
    (finishFile envW (emitW "a/b/index.html")).1.map
        (fun s' => lookupAssoc s'.context "tduxRelTop") = .ok (some "../../") ∧
    (goodSegs "a/b/index.html").length = 3 ∧
    some ("../../" : String) ≠ some "../" := by
  refine ⟨rfl, by decide, by decide⟩

/-- Witness for C7 (amended) at the concrete path `a/b/index.html`. -/
theorem c7_relative_root_witness :
    ∃ s', finishFile envW (emitW "a/b/index.html") =
        (.ok s', [.inputRead "template.html", .outputWrite (goodSegs "a/b/index.html")]) ∧
      lookupAssoc s'.context "tduxRelTop" =
        some (relTopOf (goodSegs "a/b/index.html").length) ∧
      goodSegs "a/b/index.html" =
        (splitSlash "a/b/index.html").filter (fun p => !p.data.isEmpty) :=
  c7_relative_root envW (emitW "a/b/index.html") "a/b/index.html"
    "template.html" "<html></html>" rfl (by decide) rfl

/-- Percent-encodes the control characters, modelling
`utf8_percent_encode(basename, CONTROLS)`: C0 controls and DEL become
`%XX`, all other characters pass through. -/
def hexDigit (n : Nat) : Char :=
  if n < 10 then Char.ofNat (48 + n) else Char.ofNat (55 + n)

/-- The CONTROLS set of `percent_encoding`: C0 controls and DEL. -/
def isCtl (c : Char) : Bool :=
  c.toNat < 32 || c.toNat = 127

/-- Percent-encoding of a basename with the CONTROLS set. -/
def percentEncodeControls (s : String) : String :=
  ⟨s.data.foldr (fun c acc =>
    if isCtl c then '%' :: hexDigit (c.toNat / 16) :: hexDigit (c.toNat % 16) :: acc
    else c :: acc) []⟩

/-- The Initializing-phase state, mirroring `InitializationState`. -/
structure InitializationState where
  templates : List (String × String)
  nextTemplatePath : String
  nextOutputPath : String
  fonts : List (Int × FontInfo)
  mainBodyFontSize : Int
  fontDataKeys : List ((String × Nat) × Nat)
  fontData : List (Nat × FontData)
  templateVars : List (String × String)

/-- Models `InitializationState::default()`: the initial output path is
`index.html`. -/
def initDefault : InitializationState :=
  { templates := [], nextTemplatePath := "", nextOutputPath := "index.html",
    fonts := [], mainBodyFontSize := 0, fontDataKeys := [], fontData := [],
    templateVars := [] }

/-- Models `InitializationState::handle_special`: the Initializing-phase
prefix dispatch, including the dead "too-soon" provideFile warning branch. -/
def initHandleSpecial (env : Env) (s : InitializationState) (contents : String) :
    Eff InitializationState :=
  match dropPfx contents "tdux:addTemplate " with
  | some texpath =>
    match env.resolver texpath with
    | .ok resolvedName resolvedContents =>
      (.ok { s with templates := insertAssoc s.templates texpath resolvedContents },
        [.inputRead resolvedName])
    | _ => (.error "unable to open input HTML template", [])
  | none =>
  match dropPfx contents "tdux:setTemplate " with
  | some texpath => (.ok { s with nextTemplatePath := texpath }, [])
  | none =>
  match dropPfx contents "tdux:setOutputPath " with
  | some texpath => (.ok { s with nextOutputPath := texpath }, [])
  | none =>
  match dropPfx contents "tdux:setTemplateVariable " with
  | some remainder =>
    match splitOnce remainder ' ' with
    | some nv => (.ok { s with templateVars := insertAssoc s.templateVars nv.1 nv.2 }, [])
    | none =>
      (.ok s, [.warning ("ignoring malformatted tdux:setTemplateVariable special `"
        ++ remainder ++ "`")])
  | none =>
  match dropPfx contents "tdux:provideFile " with
  | some _ => (.ok s, [.warning "ignoring too-soon tdux:provideFile special"])
  | none => (.ok s, [])

/-- Models `InitializationState::initialization_finished`: the Initializing
state is consumed into an Emitting state carrying the font registry, the
font-data table, pending paths, and the template variables as the initial
context, with an empty content buffer, no active canvas, and cleared sealing
flags. Tera setup and `rems_per_tex = 1 / main_body_font_size` live behind the
collaborator oracles. -/
def initializationFinished (s : InitializationState) : EmittingState :=
  { fonts := s.fonts, fontData := s.fontData,
    nextTemplatePath := s.nextTemplatePath, nextOutputPath := s.nextOutputPath,
    currentContent := "", currentCanvas := none, contentFinished := false,
    contentFinishedWarningIssued := false, context := s.templateVars }

/-- The two-phase engine state, mirroring `State` with its transient
`Invalid` placeholder. -/
inductive MachineState where
  | invalid
  | initializing (s : InitializationState)
  | emitting (s : EmittingState)

/-- Models `State::ensure_initialized`: consume an Initializing state into an
Emitting one; idempotent on the other variants. -/
def ensureInitialized : MachineState → MachineState
  | .initializing s => .emitting (initializationFinished s)
  | st => st

/-- Models `EngineState::handle_special`: specials equal to `tdux:emit` or
starting with `tdux:provideFile` first force the Initializing → Emitting
transition, then the special is dispatched on the current phase; reaching the
`Invalid` placeholder is the fatal invariant violation (a panic in the
source). -/
def machineHandleSpecial (env : Env) (x y : Int) (st : MachineState)
    (contents : String) : Eff MachineState :=
  let st := if contents = "tdux:emit" || startsW contents "tdux:provideFile" then
    ensureInitialized st else st
  match st with
  | .invalid => (.error "invalid spx2html state leaked", [])
  | .initializing s =>
    match initHandleSpecial env s contents with
    | (.ok s', evs) => (.ok (.initializing s'), evs)
    | (.error e, evs) => (.error e, evs)
  | .emitting s =>
    match emitHandleSpecial env x y s contents with
    | (.ok s', evs) => (.ok (.emitting s'), evs)
    | (.error e, evs) => (.error e, evs)

/-- Counterexample for C3 as stated: a `tdux:provideFile` special delivered in
the Initializing phase does not log the too-soon warning and does not leave
the state Initializing — it forces the transition to Emitting, and the copy is
performed by the Emitting-phase handler (the output write and input read
events occur). -/
theorem c3_counterexample :
    (match machineHandleSpecial envW 0 0 (.initializing initDefault)
        "tdux:provideFile src.txt out.txt" with
      | (.ok (.emitting _), evs) =>
        evs = [.outputWrite ["out.txt"], .inputRead "src.txt"] ∧
          Event.warning "ignoring too-soon tdux:provideFile special" ∉ evs
      | _ => False) := by
  constructor
  · rfl
  · decide

/-- C3 (amended): every `tdux:provideFile` special that arrives while the
state machine is in the Initializing phase first triggers the
Initializing → Emitting transition and is then handled by the Emitting
phase's provideFile handler: when the source resolves and the destination
sanitizes, the copy is performed and no too-soon warning is logged; the
too-soon branch of the Initializing handler is unreachable through the
dispatcher. -/
theorem c3_providefile_transitions (env : Env) (x y : Int)
    (s : InitializationState) (rest src dest rn rc : String)
    (segs : List String)
    (hsplit : splitOnce rest ' ' = some (src, dest))
    (hres : env.resolver src = .ok rn rc)
    (hsan : sanitize dest = .ok segs) :
    machineHandleSpecial env x y (.initializing s) ("tdux:provideFile " ++ rest) =
      (.ok (.emitting (initializationFinished s)),
        [.outputWrite segs, .inputRead rn]) := by
  have hstart : startsW ("tdux:provideFile " ++ rest) "tdux:provideFile" = true := by
    have hsp : ("tdux:provideFile " ++ rest) = "tdux:provideFile" ++ (" " ++ rest) := by
      apply String.ext
      simp [String.data_append]
    rw [hsp, startsW, dropPfx_append]
    rfl
  have h1 : dropPfx ("tdux:provideFile " ++ rest) "tdux:as " = none :=
    dropPfx_append_none _ _ _ 8 (by decide) (by decide) (by decide)
  have h2 : dropPfx ("tdux:provideFile " ++ rest) "tdux:ae " = none :=
    dropPfx_append_none _ _ _ 8 (by decide) (by decide) (by decide)
  have h3 : dropPfx ("tdux:provideFile " ++ rest) "tdux:cs " = none :=
    dropPfx_append_none _ _ _ 8 (by decide) (by decide) (by decide)
  have h4 : dropPfx ("tdux:provideFile " ++ rest) "tdux:ce " = none :=
    dropPfx_append_none _ _ _ 8 (by decide) (by decide) (by decide)
  have h5 : ("tdux:provideFile " ++ rest) ≠ "tdux:emit" :=
    string_append_ne _ _ _ (by decide)
  have h6 : dropPfx ("tdux:provideFile " ++ rest) "tdux:setTemplate " = none :=
    dropPfx_append_none _ _ _ 9 (by decide) (by decide) (by decide)
  have h7 : dropPfx ("tdux:provideFile " ++ rest) "tdux:setOutputPath " = none :=
    dropPfx_append_none _ _ _ 9 (by decide) (by decide) (by decide)
  have h8 : dropPfx ("tdux:provideFile " ++ rest) "tdux:setTemplateVariable " = none :=
    dropPfx_append_none _ _ _ 9 (by decide) (by decide) (by decide)
  have h9 : dropPfx ("tdux:provideFile " ++ rest) "tdux:provideFile " = some rest :=
    dropPfx_append _ _
  simp only [machineHandleSpecial, hstart, Bool.or_true, if_true, ensureInitialized]
  simp only [emitHandleSpecial, h1, h2, h3, h4, h5, h6, h7, h8, h9, if_neg h5]
  simp [handleProvideFile, hsplit, provideFileCopy, hres, hsan]

/-- Witness for C3 (amended) at a concrete initial state and special. -/
theorem c3_providefile_transitions_witness :
    machineHandleSpecial envW 0 0 (.initializing initDefault)
        ("tdux:provideFile " ++ "src.txt out.txt") =
      (.ok (.emitting (initializationFinished initDefault)),
        [.outputWrite ["out.txt"], .inputRead "src.txt"]) :=
  c3_providefile_transitions envW 0 0 initDefault "src.txt out.txt"
    "src.txt" "out.txt" "src.txt" "filedata" ["out.txt"]
    (by decide) rfl rfl

/-- Models the resolution loop of `handle_define_native_font`: try `name`,
then `name + ".otf"`; a resolver error aborts, both not-available yields
`none` (which the caller turns into the fatal missing-font error). On success
returns (texpath tried, resolved name, contents). -/
def tryResolveFont (env : Env) (name : String) :
    Except String (Option (String × String × String)) :=
  match env.resolver name with
  | .ok rn rc => .ok (some (name, rn, rc))
  | .err e => .error e
  | .notAvailable =>
    match env.resolver (name ++ ".otf") with
    | .ok rn rc => .ok (some (name ++ ".otf", rn, rc))
    | .err e => .error e
    | .notAvailable => .ok none

/-- Models `InitializationState::handle_define_native_font`: a no-op for an
already-registered font id; otherwise resolve the font file, read it fully
(input-read event), copy the bytes to the output directory under the resolved
basename (output-write event — note this happens on every call, before any
deduplication), then deduplicate the `fd_key` on (resolved name, face index):
a fresh pair is assigned the next dense index and its `FontData` is loaded
exactly then (font-data-load event). The main body font size is always
overwritten, and the `FontInfo` is inserted for the id. -/
def handleDefineNativeFont (env : Env) (s : InitializationState)
    (name : String) (fontNum : Int) (size : Int) (faceIndex : Nat)
    (colorRgba extendO slantO emboldenO : Option Nat) : Eff InitializationState :=
  if (lookupAssoc s.fonts fontNum).isSome then (.ok s, [])
  else
    match tryResolveFont env name with
    | .error e => (.error e, [])
    | .ok none => (.error "failed to find a font file associated with the name", [])
    | .ok (some (texpath, resolvedName, contents)) =>
      let basename := lastSeg texpath
      let ev0 : List Event := [.inputRead resolvedName, .outputWrite [basename]]
      let nextId := s.fontDataKeys.length
      let fdPair :=
        match lookupAssoc s.fontDataKeys (resolvedName, faceIndex) with
        | some k => (k, s.fontDataKeys)
        | none => (nextId, s.fontDataKeys ++ [((resolvedName, faceIndex), nextId)])
      let info : FontInfo :=
        { role := .mainBody, relUrl := percentEncodeControls basename,
          fdKey := fdPair.1, size := size, faceIndex := faceIndex,
          colorRgba := colorRgba, extendOpt := extendO, slantOpt := slantO,
          emboldenOpt := emboldenO }
      if fdPair.1 = nextId then
        match env.fromOpentype basename contents faceIndex with
        | none => (.error "unable to load glyph data from font", ev0)
        | some fdata =>
          (.ok { s with fontDataKeys := fdPair.2,
                        fontData := s.fontData ++ [(fdPair.1, fdata)],
                        mainBodyFontSize := size,
                        fonts := insertAssoc s.fonts fontNum info },
            ev0 ++ [.fontDataLoad fdPair.1])
      else
        (.ok { s with fontDataKeys := fdPair.2,
                      mainBodyFontSize := size,
                      fonts := insertAssoc s.fonts fontNum info },
          ev0)

/-- Counts the resolver-read events in an effect log. -/
def countReads (evs : List Event) : Nat :=
  (evs.filterMap fun e => match e with | .inputRead n => some n | _ => none).length

/-- Counts the font-data-load events in an effect log. -/
def countLoads (evs : List Event) : Nat :=
  (evs.filterMap fun e => match e with | .fontDataLoad k => some k | _ => none).length

theorem lookupAssoc_insert_ne {α β : Type} [DecidableEq α]
    (m : List (α × β)) (k : α) (v : β) (k' : α) (h : ¬k = k') :
    lookupAssoc (insertAssoc m k v) k' = lookupAssoc m k' := by
  induction m with
  | nil => simp [insertAssoc, lookupAssoc, h]
  | cons kv rest ih =>
    rcases kv with ⟨k0, v0⟩
    by_cases h0 : k0 = k
    · simp [insertAssoc, lookupAssoc, h0, h]
    · by_cases h1 : k0 = k'
      · have h' : ¬k' = k := fun hh => h hh.symm
        simp [insertAssoc, lookupAssoc, h0, h1, h']
      · simp [insertAssoc, lookupAssoc, h0, h1, ih]

theorem lookupAssoc_append_of_none {α β : Type} [DecidableEq α]
    (m : List (α × β)) (k : α) (v : β) (h : lookupAssoc m k = none) :
    lookupAssoc (m ++ [(k, v)]) k = some v := by
  induction m with
  | nil => simp [lookupAssoc]
  | cons kv rest ih =>
    rcases kv with ⟨k0, v0⟩
    by_cases h0 : k0 = k
    · simp [lookupAssoc, h0] at h
    · simp only [lookupAssoc, h0, if_false] at h
      simp [lookupAssoc, h0, ih h]

/-- Environment for the C2 scenario: one font file `fontA` resolving to
itself, with loadable font data. -/
def envC2 : Env :=
  { envW with
    resolver := fun n => if n = "fontA" then .ok "fontA" "bytes" else .notAvailable,
    fromOpentype := fun _ _ _ => some { lookupMetrics := fun _ _ => none } }

/-- First define_native_font call of the C2 scenario. -/
def dnfC2_1 : Eff InitializationState :=
  handleDefineNativeFont envC2 initDefault "fontA" 1 655360 0 none none none none

/-- State after the first call of the C2 scenario. -/
def s1C2 : InitializationState :=
  match dnfC2_1.1 with | .ok s => s | .error _ => initDefault

/-- Second define_native_font call of the C2 scenario, with a distinct id for
the same font name and face index. -/
def dnfC2_2 : Eff InitializationState :=
  handleDefineNativeFont envC2 s1C2 "fontA" 2 655360 0 none none none none

/-- Counterexample for C2 as stated: across two define_native_font calls with
distinct, previously unregistered ids resolving to the same (file, face)
pair, both calls succeed but the underlying font file is read from the
resolver twice and copied into the output directory twice — not exactly once
(reading and copying happen on every call, before the `fd_key`
deduplication; only the `FontData` load is deduplicated). -/
theorem c2_counterexample :
    isErrE dnfC2_1.1 = false ∧ isErrE dnfC2_2.1 = false ∧
    countReads (dnfC2_1.2 ++ dnfC2_2.2) = 2 ∧
    (writesOf (dnfC2_1.2 ++ dnfC2_2.2)).length = 2 ∧
    countLoads (dnfC2_1.2 ++ dnfC2_2.2) = 1 ∧
    (2 : Nat) ≠ 1 := by
  refine ⟨by decide, by decide, by decide, by decide, by decide, by decide⟩

/-- C2 (amended): two define_native_font calls with distinct, previously
unregistered ids whose name resolution yields the same (resolved name, face
index) pair assign both ids the same `fd_key` (the next dense index), and the
`FontData` for that pair is loaded exactly once across the two calls; the
underlying file, however, is read from the resolver and copied into the
output directory once per call — twice in total. -/
theorem c2_font_dedup (env : Env) (s0 : InitializationState)
    (name1 name2 : String) (id1 id2 : Int) (size1 size2 : Int) (face : Nat)
    (tex1 tex2 rn rc1 rc2 : String) (fd0 : FontData)
    (h1 : lookupAssoc s0.fonts id1 = none)
    (h2 : lookupAssoc s0.fonts id2 = none)
    (hne : ¬id1 = id2)
    (hres1 : tryResolveFont env name1 = .ok (some (tex1, rn, rc1)))
    (hres2 : tryResolveFont env name2 = .ok (some (tex2, rn, rc2)))
    (hkey : lookupAssoc s0.fontDataKeys (rn, face) = none)
    (hload : env.fromOpentype (lastSeg tex1) rc1 face = some fd0) :
    ∃ s1 s2 ev1 ev2,
      handleDefineNativeFont env s0 name1 id1 size1 face none none none none =
        (.ok s1, ev1) ∧
      handleDefineNativeFont env s1 name2 id2 size2 face none none none none =
        (.ok s2, ev2) ∧
      (lookupAssoc s2.fonts id1).map FontInfo.fdKey =
        some s0.fontDataKeys.length ∧
      (lookupAssoc s2.fonts id2).map FontInfo.fdKey =
        some s0.fontDataKeys.length ∧
      countLoads (ev1 ++ ev2) = 1 ∧
      countReads (ev1 ++ ev2) = 2 ∧
      (writesOf (ev1 ++ ev2)).length = 2 := by
  have hlen : ¬(s0.fontDataKeys.length =
      (s0.fontDataKeys ++ [((rn, face), s0.fontDataKeys.length)]).length) := by
    simp
  have e1 : handleDefineNativeFont env s0 name1 id1 size1 face none none none none =
      (.ok { s0 with
        fontDataKeys := s0.fontDataKeys ++ [((rn, face), s0.fontDataKeys.length)],
        fontData := s0.fontData ++ [(s0.fontDataKeys.length, fd0)],
        mainBodyFontSize := size1,
        fonts := insertAssoc s0.fonts id1
          { role := .mainBody, relUrl := percentEncodeControls (lastSeg tex1),
            fdKey := s0.fontDataKeys.length, size := size1, faceIndex := face,
            colorRgba := none, extendOpt := none, slantOpt := none,
            emboldenOpt := none } },
      [.inputRead rn, .outputWrite [lastSeg tex1], .fontDataLoad s0.fontDataKeys.length]) := by
    simp [handleDefineNativeFont, h1, hres1, hkey, hload]
  have hl2 : lookupAssoc (insertAssoc s0.fonts id1
      { role := .mainBody, relUrl := percentEncodeControls (lastSeg tex1),
        fdKey := s0.fontDataKeys.length, size := size1, faceIndex := face,
        colorRgba := none, extendOpt := none, slantOpt := none,
        emboldenOpt := none } : List (Int × FontInfo)) id2 = none := by
    rw [lookupAssoc_insert_ne _ _ _ _ hne]
    exact h2
  have hk2 : lookupAssoc
      (s0.fontDataKeys ++ [((rn, face), s0.fontDataKeys.length)]) (rn, face) =
      some s0.fontDataKeys.length :=
    lookupAssoc_append_of_none _ _ _ hkey
  have e2 : handleDefineNativeFont env
      { s0 with
        fontDataKeys := s0.fontDataKeys ++ [((rn, face), s0.fontDataKeys.length)],
        fontData := s0.fontData ++ [(s0.fontDataKeys.length, fd0)],
        mainBodyFontSize := size1,
        fonts := insertAssoc s0.fonts id1
          { role := .mainBody, relUrl := percentEncodeControls (lastSeg tex1),
            fdKey := s0.fontDataKeys.length, size := size1, faceIndex := face,
            colorRgba := none, extendOpt := none, slantOpt := none,
            emboldenOpt := none } }
      name2 id2 size2 face none none none none =
      (.ok { s0 with
        fontDataKeys := s0.fontDataKeys ++ [((rn, face), s0.fontDataKeys.length)],
        fontData := s0.fontData ++ [(s0.fontDataKeys.length, fd0)],
        mainBodyFontSize := size2,
        fonts := insertAssoc (insertAssoc s0.fonts id1
          { role := .mainBody, relUrl := percentEncodeControls (lastSeg tex1),
            fdKey := s0.fontDataKeys.length, size := size1, faceIndex := face,
            colorRgba := none, extendOpt := none, slantOpt := none,
            emboldenOpt := none }) id2
          { role := .mainBody, relUrl := percentEncodeControls (lastSeg tex2),
            fdKey := s0.fontDataKeys.length, size := size2, faceIndex := face,
            colorRgba := none, extendOpt := none, slantOpt := none,
            emboldenOpt := none } },
      [.inputRead rn, .outputWrite [lastSeg tex2]]) := by
    simp [handleDefineNativeFont, hl2, hres2, hk2, hlen]
  refine ⟨_, _, _, _, e1, e2, ?_, ?_, ?_, ?_, ?_⟩
  · rw [lookupAssoc_insert_ne _ _ _ _ (fun h => hne h.symm),
      lookupAssoc_insert_self]
    rfl
  · rw [lookupAssoc_insert_self]
    rfl
  · simp [countLoads]
  · simp [countReads]
  · simp [writesOf]

/-- Witness for C2 (amended) at the concrete scenario of `c2_counterexample`:
`fontA` defined under ids 1 and 2 with face index 0. -/
theorem c2_font_dedup_witness :
    ∃ s1 s2 ev1 ev2,
      handleDefineNativeFont envC2 initDefault "fontA" 1 655360 0 none none none none =
        (.ok s1, ev1) ∧
      handleDefineNativeFont envC2 s1 "fontA" 2 655360 0 none none none none =
        (.ok s2, ev2) ∧
      (lookupAssoc s2.fonts 1).map FontInfo.fdKey =
        some initDefault.fontDataKeys.length ∧
      (lookupAssoc s2.fonts 2).map FontInfo.fdKey =
        some initDefault.fontDataKeys.length ∧
      countLoads (ev1 ++ ev2) = 1 ∧
      countReads (ev1 ++ ev2) = 2 ∧
      (writesOf (ev1 ++ ev2)).length = 2 :=
  c2_font_dedup envC2 initDefault "fontA" "fontA" 1 2 655360 655360 0
    "fontA" "fontA" "fontA" "bytes" "bytes"
    { lookupMetrics := fun _ _ => none }
    rfl rfl (by decide) rfl rfl rfl rfl

/-- Face types of the persisted manifest, mirroring `syntax::FaceType`. -/
inductive FaceType where
  | regular
  | bold
  | italic
  | boldItalic
  deriving DecidableEq

/-- Per-family face map of the persisted manifest, mirroring
`syntax::FontFamilyAssetData`. -/
structure FontFamilyAssetData where
  faces : List (FaceType × String)
  deriving DecidableEq

/-- Family-name-keyed ensemble data, mirroring
`syntax::FontEnsembleAssetData`. -/
def FontEnsembleAssetData : Type :=
  List (String × FontFamilyAssetData)

instance : DecidableEq FontEnsembleAssetData :=
  inferInstanceAs (DecidableEq (List (String × FontFamilyAssetData)))

/-- A variant-glyph mapping of the persisted manifest, mirroring
`syntax::GlyphVariantMapping`. -/
structure GlyphVariantMapping where
  usv : Char
  index : Nat
  deriving DecidableEq

/-- Font-file asset data of the persisted manifest, mirroring
`syntax::FontFileAssetData`. -/
structure FontFileAssetData where
  source : String
  vglyphs : List (Nat × GlyphVariantMapping)
  deriving DecidableEq

/-- Tagged origin of the persisted manifest, mirroring
`syntax::AssetOrigin`: Copy carries the source path, FontCss the full
per-family face data, FontFile a source path plus glyph-variant map. -/
inductive SynAssetOrigin where
  | copy (source : String)
  | fontCss (data : FontEnsembleAssetData)
  | fontFile (data : FontFileAssetData)
  deriving DecidableEq

/-- Live Asset Manager origin, mirroring the private `AssetOrigin` of
`assets.rs`. -/
inductive AssetOrigin where
  | copy (source : String)
  | fontCss
  deriving DecidableEq

/-- The live Asset Manager, mirroring `Assets`: destination path → origin,
with insert-overwrite semantics. -/
structure Assets where
  paths : List (String × AssetOrigin)

/-- Models `Assets::copy_file`: register a Copy origin under the
destination. -/
def Assets.copyFile (a : Assets) (srcPath destPath : String) : Assets :=
  { paths := insertAssoc a.paths destPath (.copy srcPath) }

/-- Models `Assets::emit_font_css`: register a FontCss origin under the
destination. -/
def Assets.emitFontCss (a : Assets) (destPath : String) : Assets :=
  { paths := insertAssoc a.paths destPath .fontCss }

/-- The special shapes routed to the Asset Manager, mirroring the
`Special::ProvideFile` / `Special::ProvideSpecial` variants it inspects. -/
inductive AssetSpecial where
  | provideFile (spec : String)
  | provideSpecial (spec : String)
  | other (spec : String)

/-- Models `Assets::try_handle_special`: provide-file with a space registers a
Copy; provide-special `font-css <dest>` registers a FontCss; malformed or
unknown shapes warn and report unhandled; anything else is silently
unhandled. -/
def Assets.tryHandleSpecial (a : Assets) (sp : AssetSpecial) :
    Assets × Bool × List Event :=
  match sp with
  | .provideFile spec =>
    match splitOnce spec ' ' with
    | none => (a, false, [.warning "ignoring malformatted special"])
    | some sd => (a.copyFile sd.1 sd.2, true, [])
  | .provideSpecial spec =>
    match splitOnce spec ' ' with
    | none => (a, false, [.warning "ignoring malformatted special"])
    | some kd =>
      if kd.1 = "font-css" then (a.emitFontCss kd.2, true, [])
      else (a, false, [.warning "ignoring unsupported special"])
  | .other _ => (a, false, [])

/-- Modelled from the spec: `FontEnsemble` (crate::fontfamily) is not under
src/. Per the spec, its `into_serialize` returns a serializable mapping of
font-file assets together with the fully structured per-family face data
(cloneable, independent of the live state); both are modelled as data carried
by the ensemble. -/
structure FontEnsemble where
  baseAssets : List (String × SynAssetOrigin)
  cssData : FontEnsembleAssetData

/-- Modelled from the spec: the (assets, css_data) pair returned by
`FontEnsemble::into_serialize`. -/
def FontEnsemble.intoSerialize (f : FontEnsemble) :
    List (String × SynAssetOrigin) × FontEnsembleAssetData :=
  (f.baseAssets, f.cssData)

/-- The per-origin serialization performed inside `Assets::into_serialize`:
Copy keeps the source path, FontCss takes a clone of the ensemble's face
data. -/
def serializeOrigin (cssData : FontEnsembleAssetData) : AssetOrigin → SynAssetOrigin
  | .copy src => .copy src
  | .fontCss => .fontCss cssData

/-- Models `Assets::into_serialize`: starting from the font ensemble's own
serialized assets, insert one tagged entry per registered destination. -/
def Assets.intoSerialize (a : Assets) (fonts : FontEnsemble) :
    List (String × SynAssetOrigin) :=
  let ser := fonts.intoSerialize
  a.paths.foldl (fun assets kv => insertAssoc assets kv.1 (serializeOrigin ser.2 kv.2))
    ser.1

theorem lookupAssoc_foldl_insert_of_not_mem {α β γ : Type} [DecidableEq α]
    (ps : List (α × β)) (f : β → γ) (dest : α) :
    ∀ m : List (α × γ), dest ∉ ps.map Prod.fst →
      lookupAssoc (ps.foldl (fun acc kv => insertAssoc acc kv.1 (f kv.2)) m) dest =
        lookupAssoc m dest := by
  induction ps with
  | nil => intro m _; rfl
  | cons kv rest ih =>
    intro m h
    simp only [List.map_cons, List.mem_cons] at h
    push_neg at h
    rw [List.foldl_cons]
    rw [ih _ h.2]
    exact lookupAssoc_insert_ne _ _ _ _ fun he => h.1 he.symm

theorem lookupAssoc_foldl_insert {α β γ : Type} [DecidableEq α]
    (ps : List (α × β)) (f : β → γ) (dest : α) (origin : β) :
    ∀ m : List (α × γ), (ps.map Prod.fst).Nodup →
      lookupAssoc ps dest = some origin →
      lookupAssoc (ps.foldl (fun acc kv => insertAssoc acc kv.1 (f kv.2)) m) dest =
        some (f origin) := by
  induction ps with
  | nil => intro m _ h; simp [lookupAssoc] at h
  | cons kv rest ih =>
    intro m hnodup h
    rcases kv with ⟨k, v⟩
    simp only [List.map_cons, List.nodup_cons] at hnodup
    rw [List.foldl_cons]
    by_cases hk : k = dest
    · subst hk
      have h' : v = origin := by simpa [lookupAssoc] using h
      subst h'
      rw [lookupAssoc_foldl_insert_of_not_mem rest f k _ hnodup.1]
      exact lookupAssoc_insert_self _ _ _
    · simp only [lookupAssoc, hk, if_false] at h
      exact ih _ hnodup.2 h

/-- C9: for every Asset Manager state whose registered destinations are
distinct, the mapping returned by `into_serialize` contains, for each
registered destination path, an entry under the same destination key whose
origin matches the live registration: a Copy registration yields a serialized
Copy carrying the identical source path, and a FontCss registration yields a
serialized FontCss carrying the font ensemble's face data — so reconstructing
a manifest from this output reproduces an equivalent mapping. -/
theorem c9_into_serialize (a : Assets) (fonts : FontEnsemble)
    (hnodup : (a.paths.map Prod.fst).Nodup)
    (dest : String) (origin : AssetOrigin)
    (hreg : lookupAssoc a.paths dest = some origin) :
    lookupAssoc (a.intoSerialize fonts) dest =
      some (serializeOrigin fonts.cssData origin) := by
  unfold Assets.intoSerialize
  exact lookupAssoc_foldl_insert a.paths _ dest origin fonts.baseAssets hnodup hreg

/-- Witness for C9 at a concrete Asset Manager with one Copy and one FontCss
registration. -/
theorem c9_into_serialize_witness :
    lookupAssoc (Assets.intoSerialize
        { paths := [("img.png", .copy "src/img.png"), ("tdux.css", .fontCss)] }
        { baseAssets := [("f0.otf", .copy "fontA")],
          cssData := [("fam", { faces := [(FaceType.regular, "f0.otf")] })] })
      "tdux.css" =
      some (serializeOrigin [("fam", { faces := [(FaceType.regular, "f0.otf")] })]
        AssetOrigin.fontCss) :=
  c9_into_serialize
    { paths := [("img.png", .copy "src/img.png"), ("tdux.css", .fontCss)] }
    { baseAssets := [("f0.otf", .copy "fontA")],
      cssData := [("fam", { faces := [(FaceType.regular, "f0.otf")] })] }
    (by decide) "tdux.css" .fontCss rfl

end Spx2Html
